import Mathlib

/-!
Verification of the `process_van` holdings-classification pipeline.

The Python program loads a portfolio holdings table, normalizes it
(`csv_post_process`), classifies each row (`post_process`, consulting an
asset map and a class map), and writes reports (`write_results`).  Cells of
the pandas DataFrame are modelled as `Option String` (with `none` playing
the role of NaN/null); a table is a `List` of rows.  The asset map and the
class map are modelled as lists of typed entries, read in file order;
dictionary construction from them is last-write-wins, exactly as
`dict(zip(...))` is in the source.
-/

/-- One holdings row: the columns Class, Name (Fund Name), Account
(Account Name), Symbol, Value and % of Portfolio, each cell nullable. -/
structure Row where
  Class : Option String
  Name : Option String
  Account : Option String
  Symbol : Option String
  Value : Option String
  Pct : Option String
deriving DecidableEq, Repr

/-- One asset-map entry: columns Name, Class, %. -/
structure AMRow where
  Name : String
  Class : String
  Pct : Option String
deriving DecidableEq, Repr

/-- One class-map entry: columns Class, ClassMap, Order. -/
structure CMRow where
  Class : String
  ClassMap : String
  Order : Option String
deriving DecidableEq, Repr

/-- Last-write-wins association lookup: models `dict(zip(keys, values))`
followed by a dictionary lookup — a later pair with the same key
overwrites an earlier one. -/
def lookupLast {α : Type} (ps : List (String × α)) (k : String) : Option α :=
  ps.foldl (fun acc p => if p.1 = k then some p.2 else acc) none

/-- Does the character list `s` start with the character list `pat`? -/
def charsStarts : List Char → List Char → Bool
  | [], _ => true
  | _ :: _, [] => false
  | a :: as, b :: bs => a == b && charsStarts as bs

/-- Does the character list `s` contain `pat` as a contiguous run anywhere?
Models an unanchored regex search for a literal pattern. -/
def charsHas (pat : List Char) : List Char → Bool
  | [] => charsStarts pat []
  | b :: bs => charsStarts pat (b :: bs) || charsHas pat bs

/-- Unanchored, case-sensitive substring search of `pat` inside `s`,
modelling `re.search` for a literal alternative. -/
def strSearch (pat s : String) : Bool :=
  charsHas pat.toList s.toList

/-- Models `re.compile(r"(UNITED STATES TREAS|CPN|NTS)").search(name)`:
the fixed-income detector of `post_process`. -/
def fixedRegexMatch (name : String) : Bool :=
  strSearch "UNITED STATES TREAS" name || strSearch "CPN" name ||
    strSearch "NTS" name

/-! ## `read_asset_map` (process_van.py lines 133–156)

File contents are modelled as `Option (List AMRow)`: `none` is a path at
which no file exists (`FileNotFoundError`), `some rows` a readable file.
The function returns the resulting table together with the list of
messages it prints; it has no error channel because the source catches
`FileNotFoundError` and always returns. -/

/-- Model of `read_asset_map`: reads the asset map; on a missing file it prints a
warning unconditionally and falls back to an empty table with columns
Name, Class, %. -/
def read_asset_map (file : Option (List AMRow)) (path : String)
    (quiet : Bool) : List AMRow × List String :=
  match file with
  | some rows =>
      (rows, if quiet then [] else ["Read Asset map from " ++ path])
  | none =>
      ([],
       ["Asset Map not found at " ++ path ++
          " - no additional asset mapping will be done"])

/-! ## `csv_post_process` (process_van.py lines 298–327) -/

/-- Models `vadf.insert(0, "Class", vadf.Value.where(vadf.Value == "Value", None))`:
seed the Class column with the Value cell where it is the literal header
token "Value", null elsewhere. -/
def seedClassRow (r : Row) : Row :=
  { r with Class := if r.Value = some "Value" then r.Value else none }

/-- Models `vadf.loc[vadf.Name.isnull(), "Class"] = vadf["Account"]`: on rows with
a null Name (account-boundary markers), copy Account into Class. -/
def markerClassRow (r : Row) : Row :=
  if r.Name = none then { r with Class := r.Account } else r

/-- Models `vadf["Class"] = vadf["Class"].ffill()`: forward-fill Class, carrying
the last non-null value downward. -/
def ffillFrom (carry : Option String) : List Row → List Row
  | [] => []
  | r :: rs =>
      let c := match r.Class with
        | some v => some v
        | none => carry
      { r with Class := c } :: ffillFrom c rs

/-- Model of `csv_post_process`: seed Class from the Value header token, copy
Account into Class on null-Name marker rows, forward-fill Class, then
drop rows whose Value is null (`dropna(subset=["Value"])`). -/
def csv_post_process (t : List Row) : List Row :=
  (ffillFrom none ((t.map seedClassRow).map markerClassRow)).filter
    (fun r => r.Value.isSome)

/-! ## `post_process` (process_van.py lines 384–439) -/

/-- Step 1 of `post_process`: null out Class on rows whose Symbol is
exactly "Subtotal:" or "Total:". -/
def nullTotalRow (r : Row) : Row :=
  if r.Symbol = some "Subtotal:" ∨ r.Symbol = some "Total:" then
    { r with Class := none }
  else r

/-- Step 2 of `post_process` (fixed mode only): `fillna("None")` on Name,
then set Class to "Fixed" on rows whose Name matches the fixed-income
regex; the Name mutation persists in the table. -/
def fixedRow (r : Row) : Row :=
  let name := match r.Name with
    | some n => n
    | none => "None"
  { r with
      Name := some name,
      Class := if fixedRegexMatch name then some "Fixed" else r.Class }

/-- Step 3 of `post_process`:
`vadf.loc[vadf["Class"].isin(cmdf.Class), "Class"] =
 vadf["Class"].map(dict(zip(cmdf.Class, cmdf.ClassMap)))` —
rename Class through the class map, last-write-wins on duplicate keys,
rows whose Class has no entry untouched. -/
def classRemapRow (cmdf : List CMRow) (r : Row) : Row :=
  match r.Class with
  | none => r
  | some c =>
      match lookupLast (cmdf.map (fun e => (e.Class, e.ClassMap))) c with
      | none => r
      | some m => { r with Class := some m }

/-- Step 4 of `post_process`:
`vadf.loc[vadf["Name"].isin(amdf.Name), "Class"] =
 vadf["Name"].map(dict(zip(amdf.Name, amdf.Class)))` —
override Class from the asset map keyed on Name, last-write-wins,
rows whose Name has no entry untouched. -/
def assetRemapRow (amdf : List AMRow) (r : Row) : Row :=
  match r.Name with
  | none => r
  | some n =>
      match lookupLast (amdf.map (fun e => (e.Name, e.Class))) n with
      | none => r
      | some cl => { r with Class := some cl }

/-- Model of `post_process`: the classifier — null Subtotal/Total classes, then
(fixed mode only) the fixed-income regex pass, then the class-map
renaming, then the asset-map override, in that order. -/
def post_process (cmdf : List CMRow) (amdf : List AMRow) (fixed : Bool)
    (t : List Row) : List Row :=
  let t1 := t.map nullTotalRow
  let t2 := if fixed then t1.map fixedRow else t1
  let t3 := t2.map (classRemapRow cmdf)
  t3.map (assetRemapRow amdf)

/-! ## `write_results` (process_van.py lines 442–517) -/

/-- A row of the candidates table before the % column is added:
the {Name, Class} projection. -/
structure CandRow where
  Name : Option String
  Class : String
deriving DecidableEq, Repr

/-- A row of the written candidates file: {Name, Class, %}. -/
structure CandOut where
  Name : Option String
  Class : String
  Pct : ℚ
deriving DecidableEq, Repr

/-- Models `vadf.dropna(subset=["Class"])[vadf.Class.str.startswith("Other")
.dropna()][["Name", "Class"]]`: rows with non-null Class whose Class
starts with "Other", projected to Name and Class. -/
def candidates (t : List Row) : List CandRow :=
  t.filterMap (fun r =>
    match r.Class with
    | none => none
    | some c => if c.startsWith "Other" then some ⟨r.Name, c⟩ else none)

/-- The candidates file: written only when the selection is non-empty
(`if len(odf) > 0`), with the constant column `odf["%"] = 1.0` added;
`none` models "no file written". -/
def candidatesOut (t : List Row) : Option (List CandOut) :=
  if (candidates t).length > 0 then
    some ((candidates t).map (fun c => ⟨c.Name, c.Class, 1⟩))
  else none

/-- The unsorted report `out/Van-Alloc-Rep*.csv`: the table written as-is,
before structural rows are dropped. -/
def unsortedReport (t : List Row) : List Row := t

/-- The row predicate of the structural-row drop in `write_results`:
Symbol is "Subtotal:" or "Total:", or Name is the literal "Name". -/
def isStructuralOut (r : Row) : Bool :=
  r.Symbol == some "Subtotal:" || r.Symbol == some "Total:" ||
    r.Name == some "Name"

/-- Models `vadf.drop(vadf[(Symbol == "Subtotal:")|(Symbol == "Total:")|
(Name == "Name")].index)`: remove structural rows. -/
def dropStructural (t : List Row) : List Row :=
  t.filter (fun r => !(isStructuralOut r))

/-- Models `cmdf.Order.notnull().values.sum() > 0`: is any Order value present? -/
def hasOrder (cmdf : List CMRow) : Bool :=
  cmdf.any (fun e => e.Order.isSome)

/-- Models `dict(zip(cmdf.ClassMap, cmdf.Order))` applied to a Class cell: the
sort key of a row when Order values are present.  A null Class, a Class
with no class-map entry and an entry whose Order is null all map to
`none` (pandas NaN). -/
def orderKey (cmdf : List CMRow) (cls : Option String) : Option String :=
  match cls with
  | none => none
  | some c =>
      match lookupLast (cmdf.map (fun e => (e.ClassMap, e.Order))) c with
      | none => none
      | some o => o

/-- The ascending comparison used by `sort_values`: null keys (NaN) sort
last (`na_position='last'`), string keys lexically. -/
def keyLE : Option String → Option String → Bool
  | none, none => true
  | none, some _ => false
  | some _, none => true
  | some a, some b => a ≤ b

/-- The sort of `write_results`: a stable mergesort keyed by the class-map
Order of each row's Class when any Order value is present, otherwise
keyed by the Class cell itself. -/
def sortStep (cmdf : List CMRow) (t : List Row) : List Row :=
  if hasOrder cmdf then
    t.mergeSort (fun a b => keyLE (orderKey cmdf a.Class) (orderKey cmdf b.Class))
  else
    t.mergeSort (fun a b => keyLE a.Class b.Class)

/-- The sorted report `out/Van-Alloc*.csv`: structural rows removed, then
the stable sort. -/
def sortedReport (cmdf : List CMRow) (t : List Row) : List Row :=
  sortStep cmdf (dropStructural t)

/-! ## Concrete table for the end-to-end scenario -/

/-- The header row of the three-row scenario: Value is the literal header
token "Value", Name is null, Account carries the account name. -/
def c3Header : Row :=
  { Class := none, Name := none, Account := some "Acct1", Symbol := none,
    Value := some "Value", Pct := none }

/-- The data row of the three-row scenario. -/
def c3Data : Row :=
  { Class := none, Name := some "Fund A", Account := some "Acct1",
    Symbol := some "FA", Value := some "100", Pct := none }

/-- The Subtotal row of the three-row scenario. -/
def c3Subtotal : Row :=
  { Class := none, Name := none, Account := none,
    Symbol := some "Subtotal:", Value := some "100", Pct := none }

/-- The three-row, one-account scenario table. -/
def c3Table : List Row := [c3Header, c3Data, c3Subtotal]

/-! ## Helper lemmas -/

theorem lookupLast_cons {α : Type} (p : String × α) (ps : List (String × α))
    (k : String) :
    lookupLast (p :: ps) k =
      match lookupLast ps k with
      | some v => some v
      | none => if p.1 = k then some p.2 else none := by
  have general : ∀ (qs : List (String × α)) (init : Option α),
      qs.foldl (fun acc q => if q.1 = k then some q.2 else acc) init =
        match lookupLast qs k with
        | some v => some v
        | none => init := by
    intro qs
    induction qs with
    | nil => intro init; rfl
    | cons q qs ih =>
        intro init
        show qs.foldl _ (if q.1 = k then some q.2 else init) = _
        rw [ih]
        show _ = match qs.foldl (fun acc q => if q.1 = k then some q.2 else acc)
            (if q.1 = k then some q.2 else none) with
          | some v => some v
          | none => init
        rw [ih]
        cases lookupLast qs k <;> by_cases hq : q.1 = k <;> simp [hq]
  show (p :: ps).foldl (fun acc q => if q.1 = k then some q.2 else acc) none = _
  show ps.foldl _ (if p.1 = k then some p.2 else none) = _
  rw [general]

theorem lookupLast_mem {α : Type} {ps : List (String × α)} {k : String}
    {v : α} (h : lookupLast ps k = some v) : (k, v) ∈ ps := by
  induction ps with
  | nil => exact absurd h (by simp [lookupLast])
  | cons p ps ih =>
      obtain ⟨a, b⟩ := p
      rw [lookupLast_cons] at h
      cases hps : lookupLast ps k with
      | some w =>
          rw [hps] at h
          simp only [Option.some.injEq] at h
          exact List.mem_cons_of_mem _ (ih (by rw [hps, h]))
      | none =>
          rw [hps] at h
          by_cases hp : a = k
          · subst hp
            simp at h
            subst h
            exact List.mem_cons_self _ _
          · simp [hp] at h

theorem lookupLast_eq_none {α : Type} {ps : List (String × α)} {k : String}
    (h : k ∉ ps.map Prod.fst) : lookupLast ps k = none := by
  induction ps with
  | nil => rfl
  | cons p ps ih =>
      simp only [List.map_cons, List.mem_cons] at h
      push_neg at h
      rw [lookupLast_cons, ih h.2]
      simp [Ne.symm h.1]

theorem nullTotalRow_Name (r : Row) : (nullTotalRow r).Name = r.Name := by
  unfold nullTotalRow; split <;> rfl

theorem nullTotalRow_Symbol (r : Row) : (nullTotalRow r).Symbol = r.Symbol := by
  unfold nullTotalRow; split <;> rfl

theorem fixedRow_Symbol (r : Row) : (fixedRow r).Symbol = r.Symbol := rfl

theorem fixedRow_Name (r : Row) :
    (fixedRow r).Name = some (r.Name.getD "None") := by
  unfold fixedRow
  cases r.Name <;> rfl

theorem fixedRow_Class (r : Row) :
    (fixedRow r).Class =
      if fixedRegexMatch (r.Name.getD "None") then some "Fixed"
      else r.Class := by
  unfold fixedRow
  cases r.Name <;> rfl

theorem classRemapRow_Name (cmdf : List CMRow) (r : Row) :
    (classRemapRow cmdf r).Name = r.Name := by
  unfold classRemapRow
  split
  · rfl
  · split <;> rfl

theorem classRemapRow_Symbol (cmdf : List CMRow) (r : Row) :
    (classRemapRow cmdf r).Symbol = r.Symbol := by
  unfold classRemapRow
  split
  · rfl
  · split <;> rfl

theorem assetRemapRow_Name (amdf : List AMRow) (r : Row) :
    (assetRemapRow amdf r).Name = r.Name := by
  unfold assetRemapRow
  split
  · rfl
  · split <;> rfl

theorem assetRemapRow_Symbol (amdf : List AMRow) (r : Row) :
    (assetRemapRow amdf r).Symbol = r.Symbol := by
  unfold assetRemapRow
  split
  · rfl
  · split <;> rfl

theorem classRemapRow_Class_isSome (cmdf : List CMRow) (r : Row)
    (h : r.Class.isSome) : ((classRemapRow cmdf r).Class).isSome := by
  unfold classRemapRow
  split
  · exact h
  · split
    · exact h
    · rfl

theorem assetRemapRow_Class_isSome (amdf : List AMRow) (r : Row)
    (h : r.Class.isSome) : ((assetRemapRow amdf r).Class).isSome := by
  unfold assetRemapRow
  split
  · exact h
  · split
    · exact h
    · rfl

/-- The whole classifier as a single per-row function. -/
def rowPipe (cmdf : List CMRow) (amdf : List AMRow) (fixed : Bool)
    (r : Row) : Row :=
  assetRemapRow amdf (classRemapRow cmdf
    (if fixed then fixedRow (nullTotalRow r) else nullTotalRow r))

theorem post_process_eq_map (cmdf : List CMRow) (amdf : List AMRow)
    (fixed : Bool) (t : List Row) :
    post_process cmdf amdf fixed t = t.map (rowPipe cmdf amdf fixed) := by
  cases fixed <;> simp [post_process, rowPipe, List.map_map, Function.comp]

theorem rowPipe_Symbol (cmdf : List CMRow) (amdf : List AMRow) (fixed : Bool)
    (r : Row) : (rowPipe cmdf amdf fixed r).Symbol = r.Symbol := by
  unfold rowPipe
  cases fixed <;>
    simp [assetRemapRow_Symbol, classRemapRow_Symbol, fixedRow_Symbol,
      nullTotalRow_Symbol]

/-- Claim C3: on the three-row scenario (header row with Value = "Value",
data row Fund A / 100 / FA, Subtotal row), normalization followed by the
classifier gives the data row the class propagated from its account
marker row (the header row's Account, "Acct1"), and leaves the Subtotal
row with a null Class. -/
theorem C3_end_to_end :
    (post_process [] [] false (csv_post_process c3Table)).map
        (fun r => (r.Name, r.Symbol, r.Class)) =
      [(none, none, some "Acct1"),
       (some "Fund A", some "FA", some "Acct1"),
       (none, some "Subtotal:", none)] := by
  decide

/-- Claim C8: with fixed-income mode enabled, the fixed-income pass of
`post_process` sets Class to "Fixed" on exactly the rows whose Name (a
null Name defaulted to the literal "None") contains a case-sensitive,
unanchored substring matching `(UNITED STATES TREAS|CPN|NTS)`, and leaves
the Class of every other row unchanged by this step. -/
theorem C8_fixed_step_class (t : List Row) :
    (t.map fixedRow).map Row.Class =
      t.map (fun r =>
        if fixedRegexMatch (r.Name.getD "None") then some "Fixed"
        else r.Class) := by
  induction t with
  | nil => rfl
  | cons r rs ih =>
      simp only [List.map_cons, ih, List.cons.injEq, and_true]
      exact fixedRow_Class r

theorem classRemapRow_idem (cmdf : List CMRow)
    (h : ∀ e ∈ cmdf, e.ClassMap ∉ cmdf.map CMRow.Class) (r : Row) :
    classRemapRow cmdf (classRemapRow cmdf r) = classRemapRow cmdf r := by
  have keyfst : (cmdf.map (fun e => (e.Class, e.ClassMap))).map Prod.fst =
      cmdf.map CMRow.Class := by
    simp [List.map_map, Function.comp]
  cases hc : r.Class with
  | none =>
      have h1 : classRemapRow cmdf r = r := by
        unfold classRemapRow
        rw [hc]
      rw [h1]
      exact h1
  | some c =>
      cases hl : lookupLast (cmdf.map (fun e => (e.Class, e.ClassMap))) c with
      | none =>
          have h1 : classRemapRow cmdf r = r := by
            simp [classRemapRow, hc, hl]
          rw [h1]
          exact h1
      | some m =>
          have h1 : classRemapRow cmdf r = { r with Class := some m } := by
            simp [classRemapRow, hc, hl]
          have hmem := lookupLast_mem hl
          simp only [List.mem_map] at hmem
          obtain ⟨e, he, heq⟩ := hmem
          have hm : e.ClassMap = m := congrArg Prod.snd heq
          have hnone :
              lookupLast (cmdf.map (fun e => (e.Class, e.ClassMap))) m = none := by
            apply lookupLast_eq_none
            rw [keyfst, ← hm]
            exact h e he
          rw [h1]
          simp [classRemapRow, hnone]

/-- Claim C7: the class-map renaming pass of `post_process` is idempotent
whenever no ClassMap value of the class map also occurs as a Class key of
the class map: a second application changes no Class value. -/
theorem C7_classmap_idempotent (cmdf : List CMRow) (t : List Row)
    (h : ∀ e ∈ cmdf, e.ClassMap ∉ cmdf.map CMRow.Class) :
    (t.map (classRemapRow cmdf)).map (classRemapRow cmdf) =
      t.map (classRemapRow cmdf) := by
  rw [List.map_map]
  apply List.map_congr_left
  intro r hr
  exact classRemapRow_idem cmdf h r

/-- A one-entry class map for the concrete idempotence check. -/
def c7ClassMapW : List CMRow := [{ Class := "A", ClassMap := "B", Order := none }]

/-- A one-row table for the concrete idempotence check. -/
def c7TableW : List Row :=
  [{ Class := some "A", Name := some "F", Account := none, Symbol := none,
     Value := some "1", Pct := none }]

/-- Concrete instance of the class-map idempotence theorem. -/
theorem C7_witness :
    (∀ e ∈ c7ClassMapW, e.ClassMap ∉ c7ClassMapW.map CMRow.Class) ∧
      (c7TableW.map (classRemapRow c7ClassMapW)).map (classRemapRow c7ClassMapW) =
        c7TableW.map (classRemapRow c7ClassMapW) :=
  ⟨by decide, C7_classmap_idempotent c7ClassMapW c7TableW (by decide)⟩

theorem assetRemapRow_Class_of_lookup (amdf : List AMRow) (r : Row)
    (n cl : String) (hn : r.Name = some n)
    (hl : lookupLast (amdf.map (fun e => (e.Name, e.Class))) n = some cl) :
    (assetRemapRow amdf r).Class = some cl := by
  simp [assetRemapRow, hn, hl]

/-- Claim C1: with fixed-income mode enabled, a row whose Name both
matches the fixed-income regex and is the Name of an asset-map entry ends
`post_process` with that entry's Class (last entry wins on duplicate
Names): the asset-level mapping runs last and overrides both the "Fixed"
assignment and any class-map renaming. -/
theorem C1_asset_map_wins (cmdf : List CMRow) (amdf : List AMRow)
    (t : List Row) (i : Nat) (name cls : String)
    (hname : (t[i]?).map Row.Name = some (some name))
    (hfix : fixedRegexMatch name = true)
    (ham : lookupLast (amdf.map (fun e => (e.Name, e.Class))) name = some cls) :
    ((post_process cmdf amdf true t)[i]?).map Row.Class = some (some cls) := by
  rw [post_process_eq_map, List.getElem?_map]
  cases ht : t[i]? with
  | none =>
      rw [ht] at hname
      simp at hname
  | some r =>
      rw [ht] at hname
      simp only [Option.map_some', Option.some.injEq] at hname
      simp only [Option.map_some', Option.some.injEq]
      have hn2 : (fixedRow (nullTotalRow r)).Name = some name := by
        rw [fixedRow_Name, nullTotalRow_Name, hname]
        rfl
      have hn3 : (classRemapRow cmdf (fixedRow (nullTotalRow r))).Name = some name := by
        rw [classRemapRow_Name, hn2]
      unfold rowPipe
      simp only [if_true]
      exact assetRemapRow_Class_of_lookup amdf _ name cls hn3 ham

/-- A one-row table whose Name matches the fixed-income regex. -/
def c1TableW : List Row :=
  [{ Class := some "X", Name := some "A CPN B", Account := none,
     Symbol := none, Value := some "1", Pct := none }]

/-- An asset map that also maps that Name, to "Munis". -/
def c1AssetMapW : List AMRow := [{ Name := "A CPN B", Class := "Munis", Pct := none }]

/-- Concrete instance of the asset-map-wins theorem: the regex matches,
the asset map maps the Name, and the resulting Class is "Munis". -/
theorem C1_witness :
    fixedRegexMatch "A CPN B" = true ∧
      ((post_process [] c1AssetMapW true c1TableW)[0]?).map Row.Class =
        some (some "Munis") :=
  ⟨by decide,
   C1_asset_map_wins [] c1AssetMapW c1TableW 0 "A CPN B" "Munis"
     (by decide) (by decide) (by decide)⟩

theorem classRemapRow_of_class_none (cmdf : List CMRow) (r : Row)
    (h : r.Class = none) : classRemapRow cmdf r = r := by
  simp [classRemapRow, h]

theorem assetRemapRow_of_name_none (amdf : List AMRow) (r : Row)
    (h : r.Name = none) : assetRemapRow amdf r = r := by
  simp [assetRemapRow, h]

theorem assetRemapRow_of_lookup_none (amdf : List AMRow) (r : Row)
    (n : String) (hn : r.Name = some n)
    (hl : lookupLast (amdf.map (fun e => (e.Name, e.Class))) n = none) :
    assetRemapRow amdf r = r := by
  simp [assetRemapRow, hn, hl]

theorem rowPipe_class_none_iff (cmdf : List CMRow) (amdf : List AMRow)
    (fixed : Bool) (s : Row) (hin : s.Class ≠ none)
    (hstruct : (s.Symbol = some "Subtotal:" ∨ s.Symbol = some "Total:") →
        fixedRegexMatch (s.Name.getD "None") = false ∧
        lookupLast (amdf.map (fun e => (e.Name, e.Class)))
          (s.Name.getD "None") = none) :
    (rowPipe cmdf amdf fixed s).Class = none ↔
      (s.Symbol = some "Subtotal:" ∨ s.Symbol = some "Total:") := by
  unfold rowPipe
  by_cases hs : s.Symbol = some "Subtotal:" ∨ s.Symbol = some "Total:"
  · obtain ⟨hf, ha⟩ := hstruct hs
    have h1 : nullTotalRow s = { s with Class := none } := by
      unfold nullTotalRow
      rw [if_pos hs]
    cases fixed with
    | true =>
        have hC : (fixedRow { s with Class := none }).Class = none := by
          rw [fixedRow_Class]
          simp [hf]
        have hN : (fixedRow { s with Class := none }).Name =
            some (s.Name.getD "None") := by
          rw [fixedRow_Name]
        have h3 : classRemapRow cmdf (fixedRow { s with Class := none }) =
            fixedRow { s with Class := none } :=
          classRemapRow_of_class_none _ _ hC
        have h4 : assetRemapRow amdf (fixedRow { s with Class := none }) =
            fixedRow { s with Class := none } :=
          assetRemapRow_of_lookup_none _ _ _ hN ha
        show (assetRemapRow amdf (classRemapRow cmdf
            (fixedRow (nullTotalRow s)))).Class = none ↔ _
        rw [h1, h3, h4, hC]
        simp [hs]
    | false =>
        have hCn : (nullTotalRow s).Class = none := by
          rw [h1]
        have h3 : classRemapRow cmdf (nullTotalRow s) = nullTotalRow s :=
          classRemapRow_of_class_none _ _ hCn
        have h4 : assetRemapRow amdf (nullTotalRow s) = nullTotalRow s := by
          cases hn : s.Name with
          | none =>
              exact assetRemapRow_of_name_none _ _
                (by rw [nullTotalRow_Name, hn])
          | some n =>
              have hgd : s.Name.getD "None" = n := by rw [hn]; rfl
              exact assetRemapRow_of_lookup_none _ _ n
                (by rw [nullTotalRow_Name, hn]) (by rw [← hgd]; exact ha)
        show (assetRemapRow amdf (classRemapRow cmdf
            (nullTotalRow s))).Class = none ↔ _
        rw [h3, h4, hCn]
        simp [hs]
  · have h1 : nullTotalRow s = s := by
      unfold nullTotalRow
      rw [if_neg hs]
    have hsome : s.Class.isSome := Option.ne_none_iff_isSome.mp hin
    cases fixed with
    | true =>
        have h2 : ((fixedRow s).Class).isSome := by
          rw [fixedRow_Class]
          split
          · rfl
          · exact hsome
        have h4 := assetRemapRow_Class_isSome amdf _
          (classRemapRow_Class_isSome cmdf (fixedRow s) h2)
        show (assetRemapRow amdf (classRemapRow cmdf
            (fixedRow (nullTotalRow s)))).Class = none ↔ _
        rw [h1]
        exact iff_of_false (Option.ne_none_iff_isSome.mpr h4) hs
    | false =>
        have h4 := assetRemapRow_Class_isSome amdf _
          (classRemapRow_Class_isSome cmdf s hsome)
        show (assetRemapRow amdf (classRemapRow cmdf
            (nullTotalRow s))).Class = none ↔ _
        rw [h1]
        exact iff_of_false (Option.ne_none_iff_isSome.mpr h4) hs

/-- A one-row table whose row enters the classifier with a null Class and
a Symbol that is neither "Subtotal:" nor "Total:". -/
def c2TableW : List Row :=
  [{ Class := none, Name := some "Fund X", Account := none,
     Symbol := some "FX", Value := some "1", Pct := none }]

/-- Claim C2 as stated is false: a row that enters `post_process` with a
null Class and matches neither the fixed-income regex nor the asset map
leaves `post_process` with a null Class although its Symbol is neither
"Subtotal:" nor "Total:". -/
theorem C2_counterexample :
    ∃ r ∈ post_process [] [] false c2TableW,
      r.Symbol ≠ some "Subtotal:" ∧ r.Symbol ≠ some "Total:" ∧
        r.Class = none := by
  decide

/-- Claim C2, amended: provided every row enters `post_process` with a
non-null Class, and no Subtotal/Total row's Name (defaulted to "None")
matches the fixed-income regex or is a Name of the asset map, then after
`post_process` a row's Class is null exactly when its Symbol is
"Subtotal:" or "Total:". -/
theorem C2_class_none_iff_total (cmdf : List CMRow) (amdf : List AMRow)
    (fixed : Bool) (t : List Row)
    (hin : ∀ r ∈ t, r.Class ≠ none)
    (hstruct : ∀ r ∈ t,
        (r.Symbol = some "Subtotal:" ∨ r.Symbol = some "Total:") →
          fixedRegexMatch (r.Name.getD "None") = false ∧
          lookupLast (amdf.map (fun e => (e.Name, e.Class)))
            (r.Name.getD "None") = none) :
    ∀ r ∈ post_process cmdf amdf fixed t,
      (r.Class = none ↔
        (r.Symbol = some "Subtotal:" ∨ r.Symbol = some "Total:")) := by
  intro r hr
  rw [post_process_eq_map] at hr
  obtain ⟨s, hs, rfl⟩ := List.mem_map.mp hr
  rw [rowPipe_Symbol]
  exact rowPipe_class_none_iff cmdf amdf fixed s (hin s hs) (hstruct s hs)

/-- A two-row table (one Subtotal row, one data row) entering the
classifier with non-null classes. -/
def c2AmdTableW : List Row :=
  [{ Class := some "C", Name := none, Account := none,
     Symbol := some "Subtotal:", Value := some "1", Pct := none },
   { Class := some "D", Name := some "F", Account := none,
     Symbol := some "S", Value := some "2", Pct := none }]

/-- The Subtotal row of `c2AmdTableW` as it leaves the classifier. -/
def c2ProcessedRow : Row :=
  { Class := none, Name := none, Account := none,
    Symbol := some "Subtotal:", Value := some "1", Pct := none }

/-- Concrete instance of the amended C2 theorem at the processed Subtotal
row of `c2AmdTableW`. -/
theorem C2_witness :
    c2ProcessedRow.Class = none ↔
      (c2ProcessedRow.Symbol = some "Subtotal:" ∨
        c2ProcessedRow.Symbol = some "Total:") :=
  C2_class_none_iff_total [] [] false c2AmdTableW (by decide) (by decide)
    c2ProcessedRow (by decide)

theorem keyLE_refl (a : Option String) : keyLE a a = true := by
  cases a <;> simp [keyLE]

theorem keyLE_total (a b : Option String) : (keyLE a b || keyLE b a) = true := by
  cases a with
  | none => cases b <;> simp [keyLE]
  | some x =>
      cases b with
      | none => simp [keyLE]
      | some y => simpa [keyLE, decide_eq_true_eq] using le_total x y

theorem keyLE_trans (a b c : Option String) (hab : keyLE a b = true)
    (hbc : keyLE b c = true) : keyLE a c = true := by
  cases a with
  | none =>
      cases b with
      | none => exact hbc
      | some y => exact absurd hab (by simp [keyLE])
  | some x =>
      cases c with
      | none => simp [keyLE]
      | some z =>
          cases b with
          | none => exact absurd hbc (by simp [keyLE])
          | some y =>
              simp only [keyLE, decide_eq_true_eq] at hab hbc ⊢
              exact le_trans hab hbc

/-- The sort key of `sortStep` as the spec describes it: the class-map
Order of the row's Class when any Order value is present, otherwise the
Class cell itself. -/
def sortKeySpec (cmdf : List CMRow) (r : Row) : Option String :=
  if hasOrder cmdf then orderKey cmdf r.Class else r.Class

theorem sortStep_eq_mergeSort (cmdf : List CMRow) (t : List Row) :
    sortStep cmdf t =
      t.mergeSort (fun a b =>
        keyLE (sortKeySpec cmdf a) (sortKeySpec cmdf b)) := by
  unfold sortStep sortKeySpec
  by_cases h : hasOrder cmdf = true <;> simp [h]

theorem sortStep_perm (cmdf : List CMRow) (t : List Row) :
    (sortStep cmdf t).Perm t := by
  rw [sortStep_eq_mergeSort]
  exact List.mergeSort_perm t _

theorem sortStep_sorted (cmdf : List CMRow) (t : List Row) :
    List.Pairwise
      (fun a b => keyLE (sortKeySpec cmdf a) (sortKeySpec cmdf b) = true)
      (sortStep cmdf t) := by
  rw [sortStep_eq_mergeSort]
  exact List.sorted_mergeSort
    (fun a b c hab hbc => keyLE_trans (sortKeySpec cmdf a) (sortKeySpec cmdf b)
      (sortKeySpec cmdf c) hab hbc)
    (fun a b => keyLE_total (sortKeySpec cmdf a) (sortKeySpec cmdf b)) t

theorem sortStep_filter_key (cmdf : List CMRow) (t : List Row)
    (k : Option String) :
    (sortStep cmdf t).filter (fun r => sortKeySpec cmdf r == k) =
      t.filter (fun r => sortKeySpec cmdf r == k) := by
  rw [sortStep_eq_mergeSort]
  have hsub : (t.filter (fun r => sortKeySpec cmdf r == k)).Sublist
      (t.mergeSort (fun a b =>
        keyLE (sortKeySpec cmdf a) (sortKeySpec cmdf b))) := by
    apply List.sublist_mergeSort
      (fun a b c hab hbc => keyLE_trans (sortKeySpec cmdf a) (sortKeySpec cmdf b)
        (sortKeySpec cmdf c) hab hbc)
      (fun a b => keyLE_total (sortKeySpec cmdf a) (sortKeySpec cmdf b))
    · apply List.pairwise_of_forall_mem_list
      intro a ha b hb
      have hak : sortKeySpec cmdf a = k := eq_of_beq (List.mem_filter.mp ha).2
      have hbk : sortKeySpec cmdf b = k := eq_of_beq (List.mem_filter.mp hb).2
      rw [hak, hbk]
      exact keyLE_refl k
    · exact List.filter_sublist t
  have hperm : ((t.mergeSort (fun a b =>
      keyLE (sortKeySpec cmdf a) (sortKeySpec cmdf b))).filter
        (fun r => sortKeySpec cmdf r == k)).Perm
      (t.filter (fun r => sortKeySpec cmdf r == k)) :=
    List.Perm.filter _ (List.mergeSort_perm t _)
  have hsub2 : (t.filter (fun r => sortKeySpec cmdf r == k)).Sublist
      ((t.mergeSort (fun a b =>
        keyLE (sortKeySpec cmdf a) (sortKeySpec cmdf b))).filter
          (fun r => sortKeySpec cmdf r == k)) := by
    have h5 := List.Sublist.filter (fun r => sortKeySpec cmdf r == k) hsub
    have hself : (t.filter (fun r => sortKeySpec cmdf r == k)).filter
        (fun r => sortKeySpec cmdf r == k) =
          t.filter (fun r => sortKeySpec cmdf r == k) :=
      List.filter_eq_self.mpr (fun a ha => (List.mem_filter.mp ha).2)
    rwa [hself] at h5
  exact (hsub2.eq_of_length hperm.length_eq.symm).symm

/-- Claim C4: in `write_results`, after structural rows are removed the
remaining rows are stable-sorted by Class: the output is a permutation of
the remaining rows, it is sorted under the key that is the class-map
Order of the row's Class whenever any Order value is present and the
Class cell itself otherwise (null keys sorting last), and rows with equal
keys keep their prior relative order. -/
theorem C4_sort_stable (cmdf : List CMRow) (t : List Row) :
    (sortedReport cmdf t).Perm (dropStructural t) ∧
      List.Pairwise
        (fun a b => keyLE (sortKeySpec cmdf a) (sortKeySpec cmdf b) = true)
        (sortedReport cmdf t) ∧
      ∀ k, (sortedReport cmdf t).filter (fun r => sortKeySpec cmdf r == k) =
        (dropStructural t).filter (fun r => sortKeySpec cmdf r == k) :=
  ⟨sortStep_perm cmdf (dropStructural t),
   sortStep_sorted cmdf (dropStructural t),
   fun k => sortStep_filter_key cmdf (dropStructural t) k⟩

/-- Claim C5: the sorted report holds exactly the rows of the unsorted
report minus those whose Symbol is "Subtotal:" or "Total:" or whose Name
is the literal "Name"; its row count is the unsorted report's count minus
the count of those structural rows, and it contains no structural row. -/
theorem C5_sorted_report_rows (cmdf : List CMRow) (t : List Row) :
    (sortedReport cmdf t).Perm
        ((unsortedReport t).filter (fun r => !(isStructuralOut r))) ∧
      (sortedReport cmdf t).length =
        (unsortedReport t).length -
          ((unsortedReport t).filter isStructuralOut).length ∧
      ∀ r ∈ sortedReport cmdf t, isStructuralOut r = false := by
  have hperm : (sortedReport cmdf t).Perm (dropStructural t) :=
    sortStep_perm cmdf (dropStructural t)
  refine ⟨hperm, ?_, ?_⟩
  · rw [hperm.length_eq]
    have hsplit := List.filter_append_perm isStructuralOut t
    have hlen : (t.filter isStructuralOut).length +
        (t.filter (fun r => !(isStructuralOut r))).length = t.length := by
      simpa [List.length_append] using hsplit.length_eq
    unfold dropStructural unsortedReport
    omega
  · intro r hr
    have hr2 : r ∈ dropStructural t := hperm.mem_iff.mp hr
    simpa using List.of_mem_filter hr2

/-- Claim C6: the candidates selection is exactly the rows whose Class is
non-null and starts with "Other", projected to Name and Class; the
written file adds the constant % column 1.0 to each such row and exists
exactly when the selection is non-empty. -/
theorem C6_candidates (t : List Row) :
    candidates t =
        (t.filter (fun r =>
          r.Class.elim false (fun c => c.startsWith "Other"))).map
          (fun r => { Name := r.Name, Class := r.Class.getD "" }) ∧
      (candidatesOut t = none ↔ candidates t = []) ∧
      ∀ l, candidatesOut t = some l →
        l = (candidates t).map
            (fun c => { Name := c.Name, Class := c.Class, Pct := 1 }) ∧
          ∀ x ∈ l, x.Pct = 1 := by
  refine ⟨?_, ?_, ?_⟩
  · induction t with
    | nil => rfl
    | cons r rs ih =>
        unfold candidates at ih ⊢
        cases hc : r.Class with
        | none => simp [List.filterMap_cons, List.filter_cons, hc, ih]
        | some c =>
            by_cases ho : c.startsWith "Other" = true
            · simp [List.filterMap_cons, List.filter_cons, hc, ho, ih]
            · simp [List.filterMap_cons, List.filter_cons, hc, ho, ih]
  · unfold candidatesOut
    split
    · rename_i h
      simp only [List.length_pos] at h
      simp [h]
    · rename_i h
      simp only [gt_iff_lt, Nat.not_lt, Nat.le_zero, List.length_eq_zero] at h
      simp [h]
  · intro l hl
    unfold candidatesOut at hl
    split at hl
    · injection hl with h
      subst h
      refine ⟨rfl, ?_⟩
      intro x hx
      obtain ⟨c, hc, rfl⟩ := List.mem_map.mp hx
      rfl
    · exact absurd hl (by simp)

/-- A one-row table: a Subtotal row with a null Name. -/
def c10TableW : List Row :=
  [{ Class := some "C", Name := none, Account := none,
     Symbol := some "Subtotal:", Value := some "5", Pct := none }]

/-- Claim C10 as stated is false: with fixed mode on, the null-Name
Subtotal row is written to the unsorted report with Name "None", but the
sorted report drops it as structural and comes out empty — the row does
not appear in both reports. -/
theorem C10_counterexample :
    (unsortedReport (post_process [] [] true c10TableW)).map Row.Name =
        [some "None"] ∧
      sortedReport [] (post_process [] [] true c10TableW) = [] := by
  constructor
  · decide
  · show sortStep [] (dropStructural (post_process [] [] true c10TableW)) = []
    have h : dropStructural (post_process [] [] true c10TableW) = [] := by
      decide
    rw [h]
    unfold sortStep
    simp [hasOrder]

/-- Claim C10, amended: with fixed mode on, `post_process` permanently
replaces every null Name with the literal "None"; the mutated Names are
what the unsorted report holds, and every processed row that survives the
structural-row removal also appears, with its mutated Name, in the sorted
report.  With fixed mode off, all Name values are left unchanged. -/
theorem C10_name_mutation (cmdf : List CMRow) (amdf : List AMRow)
    (t : List Row) :
    (unsortedReport (post_process cmdf amdf true t)).map Row.Name =
        t.map (fun r => some (r.Name.getD "None")) ∧
      (unsortedReport (post_process cmdf amdf false t)).map Row.Name =
        t.map Row.Name ∧
      ∀ r ∈ post_process cmdf amdf true t, isStructuralOut r = false →
        r ∈ sortedReport cmdf (post_process cmdf amdf true t) := by
  refine ⟨?_, ?_, ?_⟩
  · unfold unsortedReport
    rw [post_process_eq_map, List.map_map]
    apply List.map_congr_left
    intro r hr
    simp only [Function.comp_apply]
    unfold rowPipe
    show (assetRemapRow amdf (classRemapRow cmdf
        (fixedRow (nullTotalRow r)))).Name = _
    rw [assetRemapRow_Name, classRemapRow_Name, fixedRow_Name,
      nullTotalRow_Name]
  · unfold unsortedReport
    rw [post_process_eq_map, List.map_map]
    apply List.map_congr_left
    intro r hr
    simp only [Function.comp_apply]
    unfold rowPipe
    show (assetRemapRow amdf (classRemapRow cmdf (nullTotalRow r))).Name = _
    rw [assetRemapRow_Name, classRemapRow_Name, nullTotalRow_Name]
  · intro r hr hstruct
    unfold sortedReport
    have hmem : r ∈ dropStructural (post_process cmdf amdf true t) := by
      unfold dropStructural
      refine List.mem_filter.mpr ⟨hr, ?_⟩
      simp [hstruct]
    exact ((sortStep_perm cmdf _).mem_iff).mpr hmem

/-- Claim C9: for a path at which no asset-map file exists,
`read_asset_map` returns the empty table (zero rows, columns Name, Class,
%) together with its warning message — also when the quiet flag is set —
and returns rather than raising. -/
theorem C9_missing_asset_map (path : String) (quiet : Bool) :
    read_asset_map none path quiet =
      ([],
       ["Asset Map not found at " ++ path ++
          " - no additional asset mapping will be done"]) := by
  rfl
